import Mathlib

/-!
Shallow embedding of InfraWatch (`src/providers/azureProvider.py`):
the Azure VM inventory collector (`AzureProvider.list_vms`,
`AzureProvider.get_vm_public_ip`) and the console renderer
(`display_vms_table`).  The Azure management API is modelled as an
explicit `World` record whose lookups return `Option` values (`none`
models a raised exception caught by the surrounding `try`/`except`).
Python strings are Lean `String`s; `str.split('/')` and
`str.startswith` are re-implemented structurally on the character
lists so that they both compute and admit induction.
-/

/-- Python `s.split(sep)` for a one-character separator, on character
lists: splitting never yields an empty list, and adjacent separators
yield empty segments, exactly as in Python. -/
def splitChar (c : Char) : List Char → List (List Char)
  | [] => [[]]
  | x :: xs =>
    if x = c then [] :: splitChar c xs
    else
      match splitChar c xs with
      | [] => [[x]]
      | h :: t => (x :: h) :: t

/-- Python `s.split(c)` on `String`. -/
def pySplit (c : Char) (s : String) : List String :=
  (splitChar c s.data).map (fun l => String.mk l)

/-- Python `s.split('/')[-1]`: the last slash-delimited segment.  The
default is unreachable because `splitChar` never returns `[]`. -/
def lastSeg (s : String) : String :=
  (pySplit '/' s).getLastD ""

/-- Character-list core of Python `s.startswith(p)`. -/
def startsList : List Char → List Char → Bool
  | [], _ => true
  | _ :: _, [] => false
  | p :: ps, x :: xs => p = x && startsList ps xs

/-- Python `s.startswith(p)`. -/
def pyStartswith (s p : String) : Bool :=
  startsList p.data s.data

/-- Lexicographic comparison of character lists by code point,
matching Python string `<=` used by `sorted`. -/
def lexLe : List Char → List Char → Bool
  | [], _ => true
  | _ :: _, [] => false
  | a :: as, b :: bs =>
    if a.toNat < b.toNat then true
    else if b.toNat < a.toNat then false
    else lexLe as bs

/-- Reference to a network interface attached to a VM
(`vm.network_profile.network_interfaces[i]`): only its resource `id`
is used. -/
structure NicRef where
  id : String
deriving DecidableEq

/-- Reference to a public-IP resource (`ip_config.public_ip_address`):
only its resource `id` is used. -/
structure PipRef where
  id : String
deriving DecidableEq

/-- One IP configuration of a network interface. -/
structure IpConfiguration where
  private_ip_address : Option String
  public_ip_address : Option PipRef
deriving DecidableEq

/-- A fetched network interface (`network_client.network_interfaces.get`). -/
structure Nic where
  ip_configurations : List IpConfiguration
deriving DecidableEq

/-- A fetched public-IP resource
(`network_client.public_ip_addresses.get`); `ip_address` is `None`
when the resource carries no address. -/
structure PublicIpAddress where
  ip_address : Option String
deriving DecidableEq

/-- One entry of an instance view's status list. -/
structure VmStatus where
  code : String
deriving DecidableEq

/-- Result of `compute_client.virtual_machines.instance_view`. -/
structure InstanceView where
  statuses : List VmStatus
deriving DecidableEq

/-- `vm.storage_profile.os_disk`: `os_type` is the enum's `.value`,
absent when the SDK reports none. -/
structure OsDisk where
  os_type : Option String
deriving DecidableEq

/-- `vm.storage_profile`. -/
structure StorageProfile where
  os_disk : OsDisk
deriving DecidableEq

/-- `vm.hardware_profile`. -/
structure HardwareProfile where
  vm_size : String
deriving DecidableEq

/-- `vm.network_profile`. -/
structure NetworkProfile where
  network_interfaces : List NicRef
deriving DecidableEq

/-- A raw VM object as returned by
`compute_client.virtual_machines.list_all()`.  `tags` is `none` when
the SDK reports `None` (normalized by `vm.tags or {}`). -/
structure Vm where
  id : String
  name : String
  location : String
  hardware_profile : HardwareProfile
  storage_profile : StorageProfile
  network_profile : NetworkProfile
  tags : Option (List (String × String))
  provisioning_state : String
deriving DecidableEq

/-- The environment the collector runs against: authentication and
client construction outcomes, plus the remote API lookups.  A `none`
result models a raised exception that the caller's `try`/`except`
catches.  Lookups are keyed the way the code calls them:
`(resource_group, name)`. -/
structure World where
  auth_ok : Bool
  clients_ok : Bool
  list_all : Option (List Vm)
  instance_view : String → String → Option InstanceView
  network_interfaces_get : String → String → Option Nic
  public_ip_addresses_get : String → String → Option PublicIpAddress

/-- `AzureProvider.initialize_clients`: authentication and client
construction must both succeed. -/
def clients_ready (w : World) : Bool :=
  w.auth_ok && w.clients_ok

/-- Loop body of `AzureProvider.get_vm_public_ip`: iterate all NIC
references; fetch each NIC (an exception yields `"N/A"`); inside a
fetched NIC take the first IP configuration that references a
public-IP resource, fetch that resource (an exception yields `"N/A"`)
and return its `ip_address` — which is the Python value
`public_ip.ip_address`, hence possibly `None`.  If a NIC has no
configuration referencing a public IP, continue with the next NIC;
after the last NIC return `"N/A"`. -/
def pubIpScan (w : World) (resource_group : String) : List NicRef → Option String
  | [] => some "N/A"
  | nref :: rest =>
    match w.network_interfaces_get resource_group (lastSeg nref.id) with
    | none => some "N/A"
    | some nic =>
      match nic.ip_configurations.findSome? (fun c => c.public_ip_address) with
      | none => pubIpScan w resource_group rest
      | some pref =>
        match w.public_ip_addresses_get resource_group (lastSeg pref.id) with
        | none => some "N/A"
        | some pip => pip.ip_address

/-- `AzureProvider.get_vm_public_ip(vm, resource_group)`. -/
def get_vm_public_ip (w : World) (vm : Vm) (resource_group : String) : Option String :=
  pubIpScan w resource_group vm.network_profile.network_interfaces

/-- Power-state derivation in `list_vms`: on a successful
instance-view call, scan the statuses for the first code starting
with `PowerState/` and take its last `/`-segment
(`status.code.split('/')[-1]`); default `"unknown"`. -/
def powerStateOf (iv : Option InstanceView) : String :=
  match iv with
  | none => "unknown"
  | some v =>
    match v.statuses.find? (fun s => pyStartswith s.code "PowerState/") with
    | none => "unknown"
    | some s => lastSeg s.code

/-- Private-IP resolution in `list_vms`: only the first NIC reference
and, within the fetched NIC, only the first IP configuration are
consulted; `None` addresses and all failures become `"N/A"`
(`... .private_ip_address or "N/A"`). -/
def resolvePrivateIp (w : World) (resource_group : String) (nics : List NicRef) : String :=
  match nics with
  | [] => "N/A"
  | nref :: _ =>
    match w.network_interfaces_get resource_group (lastSeg nref.id) with
    | none => "N/A"
    | some nic =>
      match nic.ip_configurations with
      | [] => "N/A"
      | c :: _ => c.private_ip_address.getD "N/A"

/-- Resource-group extraction in `list_vms`:
`vm.id.split('/')[4]`; `none` models the `IndexError` on a too-short
identifier, which the outer `try` of `list_vms` turns into an empty
overall result. -/
def extractResourceGroup? (id : String) : Option String :=
  (pySplit '/' id).get? 4

/-- The normalized record `vm_data` built per VM by `list_vms`. -/
structure VmRecord where
  name : String
  resource_group : String
  size : String
  location : String
  power_state : String
  os_type : String
  public_ip : Option String
  private_ip : String
  tags : List (String × String)
  provisioning_state : String
  tagged : Bool
deriving DecidableEq

/-- Per-VM body of the `list_vms` loop.  `none` only when the
resource-group extraction raises (identifier with fewer than five
`/`-segments); every enrichment failure degrades to a sentinel
instead. -/
def mkVmRecord (w : World) (vm : Vm) : Option VmRecord :=
  match extractResourceGroup? vm.id with
  | none => none
  | some resource_group =>
    let ts := vm.tags.getD []
    some {
      name := vm.name
      resource_group := resource_group
      size := vm.hardware_profile.vm_size
      location := vm.location
      power_state := powerStateOf (w.instance_view resource_group vm.name)
      os_type := vm.storage_profile.os_disk.os_type.getD "Unknown"
      public_ip := get_vm_public_ip w vm resource_group
      private_ip := resolvePrivateIp w resource_group vm.network_profile.network_interfaces
      tags := ts
      provisioning_state := vm.provisioning_state
      tagged := decide (0 < ts.length)
    }

/-- The `for vm in all_vms` loop of `list_vms`: an uncaught per-VM
exception aborts the whole listing (the partial `vms` list is
discarded by the outer `except`). -/
def collectRecords (w : World) : List Vm → Option (List VmRecord)
  | [] => some []
  | vm :: rest =>
    match mkVmRecord w vm with
    | none => none
    | some r =>
      match collectRecords w rest with
      | none => none
      | some rs => some (r :: rs)

/-- `AzureProvider.list_vms`: empty on failed authentication/client
construction, on a failed top-level listing call, and on any uncaught
per-VM exception. -/
def list_vms (w : World) : List VmRecord :=
  if clients_ready w then
    match w.list_all with
    | none => []
    | some vms =>
      match collectRecords w vms with
      | none => []
      | some recs => recs
  else []

/-- One row of the Rich table built by `display_vms_table`, with the
display strings (power-state coloring, tagged marker) computed as in
the code. -/
structure TableRow where
  name : String
  resource_group : String
  size : String
  state_display : String
  os_type : String
  public_ip : Option String
  tagged_display : String
  location : String
deriving DecidableEq

/-- Power-state coloring of a table row. -/
def stateDisplay (power_state : String) : String :=
  if power_state = "running" then "[green]" ++ power_state ++ "[/green]"
  else if power_state = "stopped" ∨ power_state = "deallocated" then
    "[red]" ++ power_state ++ "[/red]"
  else "[yellow]" ++ power_state ++ "[/yellow]"

/-- The row `display_vms_table` adds for one record. -/
def rowOf (r : VmRecord) : TableRow :=
  { name := r.name
    resource_group := r.resource_group
    size := r.size
    state_display := stateDisplay r.power_state
    os_type := r.os_type
    public_ip := r.public_ip
    tagged_display := if r.tagged then "✅" else "[red]❌[/red]"
    location := r.location }

/-- The console output of `display_vms_table`, one constructor per
`console.print` call (the table is a single print). -/
inductive OutLine where
  | noVmsNotice
  | table (rows : List TableRow)
  | summaryHeader
  | totalLine (n : Nat)
  | runningLine (n : Nat)
  | untaggedLine (n : Nat)
  | rgCountLine (n : Nat)
  | rgLine (name : String) (count : Nat)
deriving DecidableEq

/-- One step of the resource-group tally
`rg_counts[rg] = rg_counts.get(rg, 0) + 1` on an insertion-ordered
association list (Python dicts preserve insertion order). -/
def bumpRg (l : List (String × Nat)) (rg : String) : List (String × Nat) :=
  match l with
  | [] => [(rg, 1)]
  | (k, v) :: rest => if k = rg then (k, v + 1) :: rest else (k, v) :: bumpRg rest rg

/-- The `rg_counts` dict built by the renderer's loop over `vms`. -/
def rgCounts (vms : List VmRecord) : List (String × Nat) :=
  vms.foldl (fun acc vm => bumpRg acc vm.resource_group) []

/-- Python `sorted(rg_counts.items())`: keys are pairwise distinct, so
sorting the pairs lexicographically coincides with sorting by key
(code-point order on the name). -/
def sortedRgCounts (vms : List VmRecord) : List (String × Nat) :=
  List.insertionSort (fun p q => lexLe p.1.data q.1.data = true) (rgCounts vms)

/-- `display_vms_table`: a bare notice on empty input; otherwise the
table followed by the summary block and the sorted per-group lines. -/
def display_vms_table (vms : List VmRecord) : List OutLine :=
  if vms.isEmpty then [OutLine.noVmsNotice]
  else
    OutLine.table (vms.map rowOf) ::
    OutLine.summaryHeader ::
    OutLine.totalLine vms.length ::
    OutLine.runningLine (vms.countP (fun vm => decide (vm.power_state = "running"))) ::
    OutLine.untaggedLine (vms.countP (fun vm => !vm.tagged)) ::
    OutLine.rgCountLine (rgCounts vms).length ::
    (sortedRgCounts vms).map (fun p => OutLine.rgLine p.1 p.2)

/-- A VM with one NIC and non-empty tags, used for concrete runs. -/
def vm1 : Vm :=
  { id := "/subscriptions/sub1/resourceGroups/rg1/providers/Microsoft.Compute/virtualMachines/vm1"
    name := "vm1"
    location := "westeurope"
    hardware_profile := ⟨"Standard_B2s"⟩
    storage_profile := ⟨⟨some "Linux"⟩⟩
    network_profile := ⟨[⟨"/subscriptions/sub1/resourceGroups/rg1/providers/Microsoft.Network/networkInterfaces/nic1"⟩]⟩
    tags := some [("env", "prod")]
    provisioning_state := "Succeeded" }

/-- A healthy world for `vm1`: instance view reports a running power
state, the NIC resolves with a private address and no public-IP
reference. -/
def w1 : World :=
  { auth_ok := true
    clients_ok := true
    list_all := some [vm1]
    instance_view := fun rg n =>
      if rg = "rg1" ∧ n = "vm1" then some ⟨[⟨"PowerState/running"⟩]⟩ else none
    network_interfaces_get := fun rg n =>
      if rg = "rg1" ∧ n = "nic1" then some ⟨[⟨some "10.0.0.4", none⟩]⟩ else none
    public_ip_addresses_get := fun _ _ => none }

/-- The record `list_vms` produces in `w1`. -/
def rec1 : VmRecord :=
  { name := "vm1"
    resource_group := "rg1"
    size := "Standard_B2s"
    location := "westeurope"
    power_state := "running"
    os_type := "Linux"
    public_ip := some "N/A"
    private_ip := "10.0.0.4"
    tags := [("env", "prod")]
    provisioning_state := "Succeeded"
    tagged := true }

/-- A VM with two NICs: the first has one IP configuration with no
private address and no public-IP reference, the second carries both a
private address and a public-IP reference. -/
def vm2 : Vm :=
  { id := "/subscriptions/sub1/resourceGroups/rg2/providers/Microsoft.Compute/virtualMachines/vm2"
    name := "vm2"
    location := "westeurope"
    hardware_profile := ⟨"Standard_D2s"⟩
    storage_profile := ⟨⟨none⟩⟩
    network_profile := ⟨[⟨"/subscriptions/sub1/resourceGroups/rg2/providers/Microsoft.Network/networkInterfaces/nicA"⟩, ⟨"/subscriptions/sub1/resourceGroups/rg2/providers/Microsoft.Network/networkInterfaces/nicB"⟩]⟩
    tags := none
    provisioning_state := "Succeeded" }

/-- World for `vm2` exercising the private/public asymmetry. -/
def w2 : World :=
  { auth_ok := true
    clients_ok := true
    list_all := some [vm2]
    instance_view := fun _ _ => none
    network_interfaces_get := fun rg n =>
      if rg = "rg2" ∧ n = "nicA" then some ⟨[⟨none, none⟩]⟩
      else if rg = "rg2" ∧ n = "nicB" then
        some ⟨[⟨some "10.0.0.9", some ⟨"/subscriptions/sub1/resourceGroups/rg2/providers/Microsoft.Network/publicIPAddresses/pipB"⟩⟩]⟩
      else none
    public_ip_addresses_get := fun rg n =>
      if rg = "rg2" ∧ n = "pipB" then some ⟨some "1.2.3.4"⟩ else none }

/-- The record `list_vms` produces in `w2`: private IP stays `"N/A"`
although the second NIC has one, while the public IP is found on that
same second NIC. -/
def rec2 : VmRecord :=
  { name := "vm2"
    resource_group := "rg2"
    size := "Standard_D2s"
    location := "westeurope"
    power_state := "unknown"
    os_type := "Unknown"
    public_ip := some "1.2.3.4"
    private_ip := "N/A"
    tags := []
    provisioning_state := "Succeeded"
    tagged := false }

/-- World whose single VM has an instance-view status code with two
slashes after the `PowerState/` tag. -/
def w3 : World :=
  { auth_ok := true
    clients_ok := true
    list_all := some [{ vm1 with network_profile := ⟨[]⟩ }]
    instance_view := fun rg n =>
      if rg = "rg1" ∧ n = "vm1" then some ⟨[⟨"PowerState/a/b"⟩]⟩ else none
    network_interfaces_get := fun _ _ => none
    public_ip_addresses_get := fun _ _ => none }

/-- World whose single VM references a public-IP resource that exists
but carries no address (`ip_address` is `None`). -/
def w4 : World :=
  { auth_ok := true
    clients_ok := true
    list_all := some [vm1]
    instance_view := fun _ _ => none
    network_interfaces_get := fun rg n =>
      if rg = "rg1" ∧ n = "nic1" then
        some ⟨[⟨none, some ⟨"/subscriptions/sub1/resourceGroups/rg1/providers/Microsoft.Network/publicIPAddresses/pip1"⟩⟩]⟩
      else none
    public_ip_addresses_get := fun rg n =>
      if rg = "rg1" ∧ n = "pip1" then some ⟨none⟩ else none }

/-- A VM whose NIC reference points into a different resource group
(`other-rg`) than the VM's own (`rg10`). -/
def vm10 : Vm :=
  { id := "/subscriptions/sub1/resourceGroups/rg10/providers/Microsoft.Compute/virtualMachines/vm10"
    name := "vm10"
    location := "westeurope"
    hardware_profile := ⟨"Standard_B1s"⟩
    storage_profile := ⟨⟨some "Linux"⟩⟩
    network_profile := ⟨[⟨"/subscriptions/sub1/resourceGroups/other-rg/providers/Microsoft.Network/networkInterfaces/nic1"⟩]⟩
    tags := none
    provisioning_state := "Succeeded" }

/-- World where `vm10`'s NIC and its public IP really exist, but only
under `other-rg`; the collector queries them under `rg10`. -/
def w10 : World :=
  { auth_ok := true
    clients_ok := true
    list_all := some [vm10]
    instance_view := fun _ _ => none
    network_interfaces_get := fun rg n =>
      if rg = "other-rg" ∧ n = "nic1" then
        some ⟨[⟨some "10.9.9.9", some ⟨"/subscriptions/sub1/resourceGroups/other-rg/providers/Microsoft.Network/publicIPAddresses/pip1"⟩⟩]⟩
      else none
    public_ip_addresses_get := fun rg n =>
      if rg = "other-rg" ∧ n = "pip1" then some ⟨some "4.3.2.1"⟩ else none }

/-- `w10` with every lookup outside `rg10` erased: agrees with `w10`
on all `rg10` queries. -/
def w10b : World :=
  { w10 with
    network_interfaces_get := fun rg n =>
      if rg = "rg10" then w10.network_interfaces_get rg n else none
    public_ip_addresses_get := fun rg n =>
      if rg = "rg10" then w10.public_ip_addresses_get rg n else none }

/-- Renderer scenario record: running, tagged, group `A`. -/
def recA1 : VmRecord :=
  { rec1 with name := "vmA1", resource_group := "A" }

/-- Renderer scenario record: stopped, untagged, group `A`. -/
def recA2 : VmRecord :=
  { rec1 with
    name := "vmA2"
    resource_group := "A"
    power_state := "stopped"
    tags := []
    tagged := false }

/-- Renderer scenario record: unknown state, tagged, group `B`. -/
def recB : VmRecord :=
  { rec1 with name := "vmB", resource_group := "B", power_state := "unknown" }

/-- The spec's wording of the power-state suffix: "take the remainder
after that prefix as the powerState string" — i.e. drop the eleven
characters of `PowerState/`.  The code instead takes the last
`/`-segment; the two agree exactly when the remainder contains no
further `/`. -/
def specPowerSuffix (code : String) : String :=
  String.mk (code.data.drop ("PowerState/".data.length))

/-- Power-state derivation as the spec words it, for comparison with
`powerStateOf`. -/
def specPowerState (iv : Option InstanceView) : String :=
  match iv with
  | none => "unknown"
  | some v =>
    match v.statuses.find? (fun s => pyStartswith s.code "PowerState/") with
    | none => "unknown"
    | some s => specPowerSuffix s.code

/-- The world `w` with every per-VM enrichment lookup failing. -/
def enrichmentFailWorld (w : World) : World :=
  { w with
    instance_view := fun _ _ => none
    network_interfaces_get := fun _ _ => none
    public_ip_addresses_get := fun _ _ => none }

/-- Association-list lookup into the resource-group tally, mirroring
`rg_counts.get(rg)`. -/
def rgLookup (l : List (String × Nat)) (k : String) : Option Nat :=
  (l.find? (fun p => decide (p.1 = k))).map (fun p => p.2)

/-- `w1` with failed authentication. -/
def w6a : World := { w1 with auth_ok := false }

/-- `w1` with failed management-client construction. -/
def w6b : World := { w1 with clients_ok := false }

/-- `w1` with the top-level listing call failing. -/
def w6c : World := { w1 with list_all := none }

/-- `w1` with a legitimately empty subscription. -/
def w6d : World := { w1 with list_all := some [] }


/-! ### Lemmas about the string helpers -/

theorem mk_data (s : String) : String.mk s.data = s := by
  cases s
  rfl

theorem splitChar_ne_nil (c : Char) (l : List Char) : splitChar c l ≠ [] := by
  cases l with
  | nil => simp [splitChar]
  | cons x xs =>
    by_cases hx : x = c
    · simp [splitChar, hx]
    · simp only [splitChar, if_neg hx]
      cases h : splitChar c xs <;> simp

theorem splitChar_sep_cons (c : Char) (xs : List Char) :
    splitChar c (c :: xs) = [] :: splitChar c xs := by
  simp [splitChar]

theorem splitChar_cons_ne (c x : Char) (xs : List Char) (hx : x ≠ c)
    (h : List Char) (t : List (List Char)) (hs : splitChar c xs = h :: t) :
    splitChar c (x :: xs) = (x :: h) :: t := by
  simp [splitChar, if_neg hx, hs]

theorem splitChar_no_sep (c : Char) : ∀ (xs : List Char), c ∉ xs → splitChar c xs = [xs]
  | [], _ => rfl
  | x :: xs, h => by
    have hx : x ≠ c := fun e => h (e ▸ List.mem_cons_self x xs)
    have hxs : c ∉ xs := fun m => h (List.mem_cons_of_mem _ m)
    exact splitChar_cons_ne c x xs hx xs [] (splitChar_no_sep c xs hxs)

theorem splitChar_append_no_sep (c : Char) :
    ∀ (xs ys : List Char), c ∉ xs → splitChar c (xs ++ c :: ys) = xs :: splitChar c ys
  | [], ys, _ => by simp [splitChar_sep_cons]
  | x :: xs, ys, h => by
    have hx : x ≠ c := fun e => h (e ▸ List.mem_cons_self x xs)
    have hxs : c ∉ xs := fun m => h (List.mem_cons_of_mem _ m)
    rw [List.cons_append]
    exact splitChar_cons_ne c x (xs ++ c :: ys) hx xs (splitChar c ys)
      (splitChar_append_no_sep c xs ys hxs)

theorem getLastD_default_irrel : ∀ (l : List String), l ≠ [] → ∀ d d', l.getLastD d = l.getLastD d'
  | [], h, _, _ => absurd rfl h
  | x :: l, _, d, d' => (List.getLastD_cons d x l).trans (List.getLastD_cons d' x l).symm

theorem splitChar_two_le (c : Char) :
    ∀ (xs ys : List Char), 2 ≤ (splitChar c (xs ++ c :: ys)).length
  | [], ys => by
    rw [List.nil_append, splitChar_sep_cons]
    have := splitChar_ne_nil c ys
    cases h : splitChar c ys with
    | nil => exact absurd h this
    | cons a l => simp [h, Nat.succ_le_succ, Nat.le_add_left]
  | x :: xs, ys => by
    by_cases hx : x = c
    · subst hx
      rw [List.cons_append, splitChar_sep_cons]
      have h1 := splitChar_ne_nil x (xs ++ x :: ys)
      cases h : splitChar x (xs ++ x :: ys) with
      | nil => exact absurd h h1
      | cons a l => simp [h, Nat.succ_le_succ]
    · have ih := splitChar_two_le c xs ys
      cases h : splitChar c (xs ++ c :: ys) with
      | nil => exact absurd h (splitChar_ne_nil c _)
      | cons a l =>
        rw [List.cons_append, splitChar_cons_ne c x (xs ++ c :: ys) hx a l h]
        rw [h] at ih
        simpa using ih

theorem getLastD_default_irrel' {α : Type} : ∀ (l : List α), l ≠ [] → ∀ d d', l.getLastD d = l.getLastD d'
  | [], h, _, _ => absurd rfl h
  | x :: l, _, d, d' => (List.getLastD_cons d x l).trans (List.getLastD_cons d' x l).symm

theorem splitChar_getLastD_sep (c : Char) :
    ∀ (xs ys : List Char), c ∉ ys → ∀ (d : List Char),
      (splitChar c (xs ++ c :: ys)).getLastD d = ys
  | [], ys, h, d => by
    rw [List.nil_append, splitChar_sep_cons, splitChar_no_sep c ys h]
    simp [List.getLastD_cons]
  | x :: xs, ys, h, d => by
    by_cases hx : x = c
    · subst hx
      rw [List.cons_append, splitChar_sep_cons, List.getLastD_cons]
      exact splitChar_getLastD_sep x xs ys h []
    · cases hsp : splitChar c (xs ++ c :: ys) with
      | nil => exact absurd hsp (splitChar_ne_nil c _)
      | cons a t =>
        rw [List.cons_append, splitChar_cons_ne c x (xs ++ c :: ys) hx a t hsp,
          List.getLastD_cons]
        have ht : t ≠ [] := by
          have h2 := splitChar_two_le c xs ys
          rw [hsp] at h2
          cases t with
          | nil => simp at h2
          | cons _ _ => simp
        have ih := splitChar_getLastD_sep c xs ys h d
        rw [hsp, List.getLastD_cons] at ih
        calc t.getLastD (x :: a) = t.getLastD a := getLastD_default_irrel' t ht _ _
          _ = ys := ih

theorem map_mk_getLastD : ∀ (l : List (List Char)), l ≠ [] →
    (l.map String.mk).getLastD "" = String.mk (l.getLastD [])
  | [], h => absurd rfl h
  | [x], _ => rfl
  | x :: y :: t, _ => by
    rw [List.map_cons, List.getLastD_cons, List.getLastD_cons]
    calc ((y :: t).map String.mk).getLastD (String.mk x)
        = ((y :: t).map String.mk).getLastD "" := getLastD_default_irrel' _ (by simp) _ _
      _ = String.mk ((y :: t).getLastD []) := map_mk_getLastD (y :: t) (by simp)
      _ = String.mk ((y :: t).getLastD x) := by
          rw [getLastD_default_irrel' (y :: t) (by simp) [] x]

theorem lastSeg_sep (xs ys : List Char) (h : '/' ∉ ys) :
    lastSeg (String.mk (xs ++ '/' :: ys)) = String.mk ys := by
  rw [lastSeg, pySplit]
  rw [map_mk_getLastD _ (splitChar_ne_nil '/' _)]
  rw [show (String.mk (xs ++ '/' :: ys)).data = xs ++ '/' :: ys from rfl]
  rw [splitChar_getLastD_sep '/' xs ys h []]

theorem startsList_append_self : ∀ (p q : List Char), startsList p (p ++ q) = true
  | [], _ => rfl
  | a :: p, q => by simp [startsList, startsList_append_self p q]

theorem find?_skip_no_match {α : Type} (p : α → Bool) :
    ∀ (l1 : List α) (x : α) (l2 : List α), (∀ a ∈ l1, p a = false) →
      (l1 ++ x :: l2).find? p = (x :: l2).find? p
  | [], _, _, _ => rfl
  | a :: l1, x, l2, h => by
    rw [List.cons_append, List.find?_cons_of_neg _ (by simp [h a (List.mem_cons_self a l1)])]
    exact find?_skip_no_match p l1 x l2 (fun b hb => h b (List.mem_cons_of_mem a hb))

/-! ### Lemmas about the lexicographic comparison and the tally -/

theorem lexLe_total : ∀ (a b : List Char), lexLe a b = true ∨ lexLe b a = true
  | [], _ => Or.inl rfl
  | _ :: _, [] => Or.inr rfl
  | a :: as, b :: bs => by
    by_cases h1 : a.toNat < b.toNat
    · left
      simp [lexLe, h1]
    · by_cases h2 : b.toNat < a.toNat
      · right
        simp [lexLe, h2]
      · rcases lexLe_total as bs with h | h
        · left
          simp [lexLe, h1, h2, h]
        · right
          simp [lexLe, h1, h2, h]

theorem lexLe_trans : ∀ (a b c : List Char),
    lexLe a b = true → lexLe b c = true → lexLe a c = true
  | [], _, _, _, _ => rfl
  | a :: as, [], _, h1, _ => by simp [lexLe] at h1
  | a :: as, b :: bs, [], _, h2 => by simp [lexLe] at h2
  | a :: as, b :: bs, c :: cs, h1, h2 => by
    simp only [lexLe] at h1 h2 ⊢
    by_cases hab : a.toNat < b.toNat
    · by_cases hbc : b.toNat < c.toNat
      · simp [Nat.lt_trans hab hbc]
      · by_cases hcb : c.toNat < b.toNat
        · simp [hbc, hcb] at h2
        · have : a.toNat < c.toNat := by omega
          simp [this]
    · by_cases hba : b.toNat < a.toNat
      · simp [hab, hba] at h1
      · have hA : a.toNat = b.toNat := by omega
        by_cases hbc : b.toNat < c.toNat
        · simp [hA ▸ hbc]
        · by_cases hcb : c.toNat < b.toNat
          · simp [hbc, hcb] at h2
          · simp [hab, hba] at h1
            simp [hbc, hcb] at h2
            have hac : ¬ a.toNat < c.toNat := by omega
            have hca : ¬ c.toNat < a.toNat := by omega
            simp [hac, hca, lexLe_trans as bs cs h1 h2]

theorem bumpRg_fst (rg : String) : ∀ (l : List (String × Nat)),
    (bumpRg l rg).map Prod.fst =
      if rg ∈ l.map Prod.fst then l.map Prod.fst else l.map Prod.fst ++ [rg]
  | [] => by simp [bumpRg]
  | (k, v) :: rest => by
    by_cases hk : k = rg
    · simp [bumpRg, hk]
    · have ih := bumpRg_fst rg rest
      by_cases hm : rg ∈ rest.map Prod.fst
      · simp [bumpRg, hk, hm, Ne.symm hk, ih]
      · simp [bumpRg, hk, hm, Ne.symm hk, ih]

theorem bumpRg_nodup (rg : String) (l : List (String × Nat))
    (h : (l.map Prod.fst).Nodup) : ((bumpRg l rg).map Prod.fst).Nodup := by
  rw [bumpRg_fst]
  by_cases hm : rg ∈ l.map Prod.fst
  · simpa [hm] using h
  · simp only [hm, if_neg, ite_false]
    rw [List.nodup_append]
    exact ⟨h, List.nodup_singleton rg, by simpa using hm⟩

theorem rgCounts_fold_nodup (vms : List VmRecord) :
    ∀ (acc : List (String × Nat)), (acc.map Prod.fst).Nodup →
      ((vms.foldl (fun acc vm => bumpRg acc vm.resource_group) acc).map Prod.fst).Nodup := by
  induction vms with
  | nil => intro acc h; simpa using h
  | cons v rest ih =>
    intro acc h
    exact ih (bumpRg acc v.resource_group) (bumpRg_nodup v.resource_group acc h)

theorem rgCounts_nodup (vms : List VmRecord) : ((rgCounts vms).map Prod.fst).Nodup :=
  rgCounts_fold_nodup vms [] (by simp)

theorem bumpRg_lookup_self (rg : String) : ∀ (l : List (String × Nat)),
    rgLookup (bumpRg l rg) rg = some ((rgLookup l rg).getD 0 + 1)
  | [] => by simp [bumpRg, rgLookup]
  | (k, v) :: rest => by
    by_cases hk : k = rg
    · subst hk
      simp [bumpRg, rgLookup]
    · have ih := bumpRg_lookup_self rg rest
      simp only [bumpRg, if_neg hk, rgLookup] at ih ⊢
      rw [List.find?_cons_of_neg _ (by simp [hk]), List.find?_cons_of_neg _ (by simp [hk])]
      exact ih

theorem bumpRg_lookup_ne (rg k : String) (hne : rg ≠ k) : ∀ (l : List (String × Nat)),
    rgLookup (bumpRg l rg) k = rgLookup l k
  | [] => by simp [bumpRg, rgLookup, hne]
  | (k', v) :: rest => by
    by_cases hk : k' = rg
    · subst hk
      have hb : bumpRg ((k', v) :: rest) k' = (k', v + 1) :: rest := by simp [bumpRg]
      rw [hb]
      simp only [rgLookup]
      rw [List.find?_cons_of_neg _ (by simp [hne]), List.find?_cons_of_neg _ (by simp [hne])]
    · have ih := bumpRg_lookup_ne rg k hne rest
      simp only [bumpRg, if_neg hk, rgLookup] at ih ⊢
      by_cases h2 : k' = k
      · subst h2
        rw [List.find?_cons_of_pos _ (by simp), List.find?_cons_of_pos _ (by simp)]
      · rw [List.find?_cons_of_neg _ (by simp [h2]), List.find?_cons_of_neg _ (by simp [h2])]
        exact ih

theorem rgCounts_fold_lookup (k : String) : ∀ (vms : List VmRecord) (acc : List (String × Nat)),
    rgLookup (vms.foldl (fun acc vm => bumpRg acc vm.resource_group) acc) k =
      (if vms.countP (fun v => decide (v.resource_group = k)) = 0 then rgLookup acc k
       else some ((rgLookup acc k).getD 0 + vms.countP (fun v => decide (v.resource_group = k))))
  | [], acc => by simp
  | v :: rest, acc => by
    rw [List.foldl_cons]
    have ih := rgCounts_fold_lookup k rest (bumpRg acc v.resource_group)
    by_cases hv : v.resource_group = k
    · rw [List.countP_cons_of_pos _ _ (by simp [hv]), ih, hv, bumpRg_lookup_self]
      by_cases hc : rest.countP (fun v => decide (v.resource_group = k)) = 0
      · simp [hc]
      · simp only [hc, if_false, Option.getD_some]
        rw [if_neg (by omega)]
        congr 1
        omega
    · rw [List.countP_cons_of_neg _ _ (by simp [hv]), ih, bumpRg_lookup_ne v.resource_group k hv acc]

theorem rgCounts_lookup (vms : List VmRecord) (k : String) :
    rgLookup (rgCounts vms) k =
      (if vms.countP (fun v => decide (v.resource_group = k)) = 0 then none
       else some (vms.countP (fun v => decide (v.resource_group = k)))) := by
  rw [rgCounts, rgCounts_fold_lookup k vms []]
  simp [rgLookup]

theorem lookup_of_mem_nodup : ∀ (l : List (String × Nat)), (l.map Prod.fst).Nodup →
    ∀ p ∈ l, rgLookup l p.1 = some p.2
  | [], _, p, hp => absurd hp (List.not_mem_nil p)
  | q :: rest, h, p, hp => by
    rcases List.mem_cons.1 hp with rfl | hp'
    · simp only [rgLookup]
      rw [List.find?_cons_of_pos _ (by simp)]
      rfl
    · have hnd : (q.1 :: rest.map Prod.fst).Nodup := by simpa using h
      have hq : ¬ (q.1 = p.1) := by
        intro he
        exact (List.nodup_cons.1 hnd).1 (he ▸ List.mem_map_of_mem Prod.fst hp')
      simp only [rgLookup]
      rw [List.find?_cons_of_neg _ (by simp [hq])]
      exact lookup_of_mem_nodup rest (by simpa using (List.nodup_cons.1 hnd).2) p hp'

theorem sortedRgCounts_perm (vms : List VmRecord) :
    (sortedRgCounts vms).Perm (rgCounts vms) :=
  List.perm_insertionSort _ _

theorem sortedRgCounts_pairwise (vms : List VmRecord) :
    List.Pairwise (fun p q : String × Nat => lexLe p.1.data q.1.data = true ∧ p.1 ≠ q.1)
      (sortedRgCounts vms) := by
  have hs : List.Sorted (fun p q : String × Nat => lexLe p.1.data q.1.data = true)
      (sortedRgCounts vms) :=
    @List.sorted_insertionSort (String × Nat) (fun p q => lexLe p.1.data q.1.data = true) _
      ⟨fun p q => lexLe_total p.1.data q.1.data⟩
      ⟨fun p q r0 => lexLe_trans p.1.data q.1.data r0.1.data⟩ (rgCounts vms)
  have h1 : List.Pairwise (fun p q : String × Nat => p.1 ≠ q.1) (rgCounts vms) :=
    List.pairwise_map.1 (rgCounts_nodup vms)
  have hn : List.Pairwise (fun p q : String × Nat => p.1 ≠ q.1) (sortedRgCounts vms) :=
    (List.Perm.pairwise_iff (fun h => Ne.symm h) (sortedRgCounts_perm vms)).2 h1
  exact hs.and hn

theorem mem_sortedRgCounts (vms : List VmRecord) (p : String × Nat)
    (hp : p ∈ sortedRgCounts vms) :
    p.2 = vms.countP (fun v => decide (v.resource_group = p.1)) ∧
      p.1 ∈ vms.map (fun v => v.resource_group) := by
  have hmem : p ∈ rgCounts vms := ((sortedRgCounts_perm vms).mem_iff).1 hp
  have hl := lookup_of_mem_nodup (rgCounts vms) (rgCounts_nodup vms) p hmem
  rw [rgCounts_lookup] at hl
  by_cases hc : vms.countP (fun v => decide (v.resource_group = p.1)) = 0
  · rw [if_pos hc] at hl
    exact absurd hl (by simp)
  · rw [if_neg hc] at hl
    have hp2 : p.2 = vms.countP (fun v => decide (v.resource_group = p.1)) :=
      (Option.some_injective _ hl).symm
    refine ⟨hp2, ?_⟩
    have hpos : 0 < vms.countP (fun v => decide (v.resource_group = p.1)) := Nat.pos_of_ne_zero hc
    obtain ⟨v, hv, hdec⟩ := List.countP_pos_iff.1 hpos
    have : v.resource_group = p.1 := of_decide_eq_true hdec
    exact this ▸ List.mem_map_of_mem (fun v => v.resource_group) hv

theorem group_mem_sortedRgCounts (vms : List VmRecord) (v : VmRecord) (hv : v ∈ vms) :
    ∃ p ∈ sortedRgCounts vms, p.1 = v.resource_group := by
  have hpos : 0 < vms.countP (fun r => decide (r.resource_group = v.resource_group)) :=
    List.countP_pos_iff.2 ⟨v, hv, by simp⟩
  have hl := rgCounts_lookup vms v.resource_group
  rw [if_neg (by omega)] at hl
  simp only [rgLookup] at hl
  obtain ⟨q, hq, -⟩ := Option.map_eq_some'.1 hl
  have hqmem : q ∈ rgCounts vms := List.mem_of_find?_eq_some hq
  have hq1 : q.1 = v.resource_group := by
    have h := List.find?_some hq
    simpa using h
  exact ⟨q, ((sortedRgCounts_perm vms).mem_iff).2 hqmem, hq1⟩

/-! ### Lemmas about the collector -/

theorem mkVmRecord_none_iff (w : World) (vm : Vm) :
    mkVmRecord w vm = none ↔ extractResourceGroup? vm.id = none := by
  cases h : extractResourceGroup? vm.id <;> simp [mkVmRecord, h]

theorem mkVmRecord_tags (w : World) (vm : Vm) (r : VmRecord) (h : mkVmRecord w vm = some r) :
    r.tags = vm.tags.getD [] ∧ r.tagged = decide (0 < (vm.tags.getD []).length) := by
  cases h4 : extractResourceGroup? vm.id with
  | none => rw [(mkVmRecord_none_iff w vm).2 h4] at h; exact absurd h (by simp)
  | some rg =>
    simp only [mkVmRecord, h4, Option.some.injEq] at h
    subst h
    exact ⟨rfl, rfl⟩

theorem collectRecords_mem : ∀ (w : World) (l : List Vm) (recs : List VmRecord),
    collectRecords w l = some recs → ∀ r ∈ recs, ∃ vm ∈ l, mkVmRecord w vm = some r
  | _, [], recs, h, r, hr => by
    simp only [collectRecords, Option.some.injEq] at h
    subst h
    exact absurd hr (List.not_mem_nil r)
  | w, vm :: rest, recs, h, r, hr => by
    simp only [collectRecords] at h
    cases h1 : mkVmRecord w vm with
    | none => rw [h1] at h; exact absurd h (by simp)
    | some r0 =>
      rw [h1] at h
      cases h2 : collectRecords w rest with
      | none => rw [h2] at h; exact absurd h (by simp)
      | some rs =>
        rw [h2] at h
        simp only [Option.some.injEq] at h
        subst h
        rcases List.mem_cons.1 hr with rfl | hr'
        · exact ⟨vm, List.mem_cons_self vm rest, h1⟩
        · obtain ⟨vm', hvm', hmk⟩ := collectRecords_mem w rest rs h2 r hr'
          exact ⟨vm', List.mem_cons_of_mem vm hvm', hmk⟩

theorem collectRecords_length : ∀ (w : World) (l : List Vm) (recs : List VmRecord),
    collectRecords w l = some recs → recs.length = l.length
  | _, [], recs, h => by
    simp only [collectRecords, Option.some.injEq] at h
    subst h
    rfl
  | w, vm :: rest, recs, h => by
    simp only [collectRecords] at h
    cases h1 : mkVmRecord w vm with
    | none => rw [h1] at h; exact absurd h (by simp)
    | some r0 =>
      rw [h1] at h
      cases h2 : collectRecords w rest with
      | none => rw [h2] at h; exact absurd h (by simp)
      | some rs =>
        rw [h2] at h
        simp only [Option.some.injEq] at h
        subst h
        simp [collectRecords_length w rest rs h2]

theorem resolvePrivateIp_failWorld (w : World) (rg : String) (nics : List NicRef) :
    resolvePrivateIp (enrichmentFailWorld w) rg nics = "N/A" := by
  cases nics <;> simp [resolvePrivateIp, enrichmentFailWorld]

theorem pubIpScan_failWorld (w : World) (rg : String) (nics : List NicRef) :
    pubIpScan (enrichmentFailWorld w) rg nics = some "N/A" := by
  cases nics <;> simp [pubIpScan, enrichmentFailWorld]

theorem mkVmRecord_failWorld (w : World) (vm : Vm) (r : VmRecord)
    (h : mkVmRecord (enrichmentFailWorld w) vm = some r) :
    r.power_state = "unknown" ∧ r.private_ip = "N/A" ∧ r.public_ip = some "N/A" := by
  cases h4 : extractResourceGroup? vm.id with
  | none => rw [(mkVmRecord_none_iff _ vm).2 h4] at h; exact absurd h (by simp)
  | some rg =>
    simp only [mkVmRecord, h4, Option.some.injEq] at h
    subst h
    refine ⟨rfl, ?_, ?_⟩
    · exact resolvePrivateIp_failWorld w rg vm.network_profile.network_interfaces
    · exact pubIpScan_failWorld w rg vm.network_profile.network_interfaces

theorem mkVmRecord_failWorld_isSome (w : World) (vm : Vm) :
    (mkVmRecord (enrichmentFailWorld w) vm).isSome = (mkVmRecord w vm).isSome := by
  cases h4 : extractResourceGroup? vm.id <;> simp [mkVmRecord, h4]

theorem collectRecords_failWorld_isSome (w : World) : ∀ (l : List Vm),
    (collectRecords (enrichmentFailWorld w) l).isSome = (collectRecords w l).isSome
  | [] => rfl
  | vm :: rest => by
    have hm := mkVmRecord_failWorld_isSome w vm
    have ih := collectRecords_failWorld_isSome w rest
    simp only [collectRecords]
    cases h1 : mkVmRecord w vm with
    | none =>
      cases h1' : mkVmRecord (enrichmentFailWorld w) vm with
      | none => rfl
      | some r1 => rw [h1, h1'] at hm; simp at hm
    | some r0 =>
      cases h1' : mkVmRecord (enrichmentFailWorld w) vm with
      | none => rw [h1, h1'] at hm; simp at hm
      | some r1 =>
        cases h2 : collectRecords w rest with
        | none =>
          cases h2' : collectRecords (enrichmentFailWorld w) rest with
          | none => rfl
          | some rs1 => rw [h2, h2'] at ih; simp at ih
        | some rs =>
          cases h2' : collectRecords (enrichmentFailWorld w) rest with
          | none => rw [h2, h2'] at ih; simp at ih
          | some rs1 => rfl

theorem mem_list_vms (w : World) (r : VmRecord) (h : r ∈ list_vms w) :
    ∃ l vm, w.list_all = some l ∧ vm ∈ l ∧ mkVmRecord w vm = some r := by
  unfold list_vms at h
  split at h
  · split at h
    next hl =>
      exact absurd h (List.not_mem_nil r)
    next l hl =>
      split at h
      next => exact absurd h (List.not_mem_nil r)
      next recs hcr =>
        obtain ⟨vm, hvm, hmk⟩ := collectRecords_mem w l recs hcr r h
        exact ⟨l, vm, hl, hvm, hmk⟩
  · exact absurd h (List.not_mem_nil r)

theorem pubIpScan_none_addr (w : World) (rg : String) :
    ∀ (nics : List NicRef), pubIpScan w rg nics = none →
      ∃ n pip, w.public_ip_addresses_get rg n = some pip ∧ pip.ip_address = none
  | [], h => by simp [pubIpScan] at h
  | nref :: rest, h => by
    simp only [pubIpScan] at h
    split at h
    · simp at h
    · split at h
      · exact pubIpScan_none_addr w rg rest h
      · split at h
        · simp at h
        next pip heq => exact ⟨_, pip, heq, h⟩

theorem pubIpScan_some_addr (w : World) (rg : String) :
    ∀ (nics : List NicRef) (s : String), pubIpScan w rg nics = some s →
      s = "N/A" ∨ ∃ n pip, w.public_ip_addresses_get rg n = some pip ∧ pip.ip_address = some s
  | [], s, h => by
    simp only [pubIpScan, Option.some.injEq] at h
    exact Or.inl h.symm
  | nref :: rest, s, h => by
    simp only [pubIpScan] at h
    split at h
    · simp only [Option.some.injEq] at h
      exact Or.inl h.symm
    · split at h
      · exact pubIpScan_some_addr w rg rest s h
      · split at h
        · simp only [Option.some.injEq] at h
          exact Or.inl h.symm
        next pip heq => exact Or.inr ⟨_, pip, heq, h⟩

theorem pubIpScan_skip (w : World) (rg : String) (nref : NicRef) (nic : Nic)
    (h1 : w.network_interfaces_get rg (lastSeg nref.id) = some nic)
    (h2 : ∀ c ∈ nic.ip_configurations, c.public_ip_address = none) (rest : List NicRef) :
    pubIpScan w rg (nref :: rest) = pubIpScan w rg rest := by
  simp only [pubIpScan, h1]
  rw [List.findSome?_eq_none_iff.2 h2]

theorem resolvePrivateIp_congr (w w' : World) (rg : String)
    (hn : ∀ n, w.network_interfaces_get rg n = w'.network_interfaces_get rg n) :
    ∀ (nics : List NicRef), resolvePrivateIp w rg nics = resolvePrivateIp w' rg nics
  | [] => rfl
  | nref :: rest => by
    simp only [resolvePrivateIp]
    rw [hn (lastSeg nref.id)]

theorem pubIpScan_congr (w w' : World) (rg : String)
    (hn : ∀ n, w.network_interfaces_get rg n = w'.network_interfaces_get rg n)
    (hp : ∀ n, w.public_ip_addresses_get rg n = w'.public_ip_addresses_get rg n) :
    ∀ (nics : List NicRef), pubIpScan w rg nics = pubIpScan w' rg nics
  | [] => rfl
  | nref :: rest => by
    simp only [pubIpScan, hn (lastSeg nref.id)]
    split
    · rfl
    · split
      · exact pubIpScan_congr w w' rg hn hp rest
      · rw [hp]

/-! ### Claim theorems -/

/-- C1: every `VmRecord` produced by the collector satisfies
`tagged = (len(tags) > 0)`, where `tags` is the VM's tag mapping
normalized to empty when absent; `tagged` is never set independently
of `tags`. -/
theorem c1_tagged_iff_nonempty_tags (w : World) (r : VmRecord) (h : r ∈ list_vms w) :
    r.tagged = true ↔ 0 < r.tags.length := by
  obtain ⟨l, vm, -, -, hmk⟩ := mem_list_vms w r h
  obtain ⟨ht, htag⟩ := mkVmRecord_tags w vm r hmk
  rw [htag, ht]
  exact decide_eq_true_iff

/-- Witness for C1 at the concrete world `w1`. -/
theorem c1_witness : rec1 ∈ list_vms w1 ∧ (rec1.tagged = true ↔ 0 < rec1.tags.length) :=
  ⟨by decide, c1_tagged_iff_nonempty_tags w1 rec1 (by decide)⟩

/-- C2: private-IP resolution reads only the first NIC reference (the
tail of the NIC list is irrelevant), while public-IP resolution
continues past a fetched NIC none of whose configurations references
a public IP; concretely, in `w2` the first NIC has no private address
configured and the second does, yet the record reports `"N/A"` for
private IP while the public IP is found on the second NIC. -/
theorem c2_ip_resolution_asymmetry :
    (∀ (w : World) (rg : String) (nref : NicRef) (rest rest' : List NicRef),
        resolvePrivateIp w rg (nref :: rest) = resolvePrivateIp w rg (nref :: rest'))
    ∧ (∀ (w : World) (rg : String) (nref : NicRef) (nic : Nic) (rest : List NicRef),
        w.network_interfaces_get rg (lastSeg nref.id) = some nic →
        (∀ c ∈ nic.ip_configurations, c.public_ip_address = none) →
        pubIpScan w rg (nref :: rest) = pubIpScan w rg rest)
    ∧ list_vms w2 = [rec2] ∧ rec2.private_ip = "N/A" ∧ rec2.public_ip = some "1.2.3.4" := by
  refine ⟨?_, ?_, by decide, by decide, by decide⟩
  · intro w rg nref rest rest'
    rfl
  · intro w rg nref nic rest h1 h2
    exact pubIpScan_skip w rg nref nic h1 h2 rest

/-- Witness for C2: dropping or replacing the NIC tail leaves the
private IP unchanged, and a public-IP-free first NIC is skipped. -/
theorem c2_witness :
    resolvePrivateIp w2 "rg2"
        [⟨"/subscriptions/sub1/resourceGroups/rg2/providers/Microsoft.Network/networkInterfaces/nicA"⟩,
         ⟨"/subscriptions/sub1/resourceGroups/rg2/providers/Microsoft.Network/networkInterfaces/nicB"⟩] =
      resolvePrivateIp w2 "rg2"
        [⟨"/subscriptions/sub1/resourceGroups/rg2/providers/Microsoft.Network/networkInterfaces/nicA"⟩]
    ∧ pubIpScan w2 "rg2"
        [⟨"/subscriptions/sub1/resourceGroups/rg2/providers/Microsoft.Network/networkInterfaces/nicA"⟩,
         ⟨"/subscriptions/sub1/resourceGroups/rg2/providers/Microsoft.Network/networkInterfaces/nicB"⟩] =
      pubIpScan w2 "rg2"
        [⟨"/subscriptions/sub1/resourceGroups/rg2/providers/Microsoft.Network/networkInterfaces/nicB"⟩] :=
  ⟨c2_ip_resolution_asymmetry.1 w2 "rg2"
      ⟨"/subscriptions/sub1/resourceGroups/rg2/providers/Microsoft.Network/networkInterfaces/nicA"⟩
      [⟨"/subscriptions/sub1/resourceGroups/rg2/providers/Microsoft.Network/networkInterfaces/nicB"⟩] [],
   c2_ip_resolution_asymmetry.2.1 w2 "rg2"
      ⟨"/subscriptions/sub1/resourceGroups/rg2/providers/Microsoft.Network/networkInterfaces/nicA"⟩
      ⟨[⟨none, none⟩]⟩
      [⟨"/subscriptions/sub1/resourceGroups/rg2/providers/Microsoft.Network/networkInterfaces/nicB"⟩]
      (by decide) (by decide)⟩

/-- C3 counterexample: the claim says the powerState is the remainder
after the `PowerState/` tag, but the code takes the last
`/`-segment; on the status code `PowerState/a/b` the collector yields
`"b"` while the remainder after the tag is `"a/b"`. -/
theorem c3_counterexample :
    (list_vms w3).map (fun r => r.power_state) = ["b"]
    ∧ specPowerState (some ⟨[⟨"PowerState/a/b"⟩]⟩) = "a/b"
    ∧ ("b" : String) ≠ "a/b" :=
  ⟨by decide, by decide, by decide⟩

/-- C3 (amended): the collector scans the status list for the first
code starting with `PowerState/` and takes its last `/`-segment —
which equals the remainder after the tag whenever that remainder
contains no further `/`; with no such status, or a failed
instance-view call, the powerState is `"unknown"`; in particular
`PowerState/running` yields `"running"`. -/
theorem c3_power_state_parsing :
    (∀ (l1 l2 : List VmStatus) (st : String),
        (∀ s ∈ l1, pyStartswith s.code "PowerState/" = false) → '/' ∉ st.data →
        powerStateOf (some ⟨l1 ++ ⟨"PowerState/" ++ st⟩ :: l2⟩) = st)
    ∧ powerStateOf none = "unknown"
    ∧ (∀ (sts : List VmStatus), (∀ s ∈ sts, pyStartswith s.code "PowerState/" = false) →
        powerStateOf (some ⟨sts⟩) = "unknown")
    ∧ powerStateOf (some ⟨[⟨"PowerState/running"⟩]⟩) = "running" := by
  refine ⟨?_, rfl, ?_, by decide⟩
  · intro l1 l2 st h1 hst
    have hpos : pyStartswith ("PowerState/" ++ st) "PowerState/" = true := by
      rw [pyStartswith, String.data_append]
      exact startsList_append_self _ _
    have hd : ("PowerState/" ++ st).data = "PowerState".data ++ '/' :: st.data := by
      rw [String.data_append]
      rw [show "PowerState/".data = "PowerState".data ++ ['/'] from rfl]
      simp [List.append_assoc]
    have hcode : lastSeg ("PowerState/" ++ st) = st := by
      calc lastSeg ("PowerState/" ++ st)
          = lastSeg (String.mk ("PowerState".data ++ '/' :: st.data)) := by
            rw [← hd, mk_data]
        _ = String.mk st.data := lastSeg_sep _ _ hst
        _ = st := mk_data st
    simp only [powerStateOf]
    rw [find?_skip_no_match _ l1 _ l2 h1]
    have hfind : List.find? (fun a : VmStatus => pyStartswith a.code "PowerState/")
        ((⟨"PowerState/" ++ st⟩ : VmStatus) :: l2) = some ⟨"PowerState/" ++ st⟩ :=
      List.find?_cons_of_pos _ hpos
    rw [hfind]
    exact hcode
  · intro sts h
    simp only [powerStateOf]
    rw [List.find?_eq_none.2 (fun s hs => by simp [h s hs])]

/-- Witness for the amended C3: a leading non-power status is
skipped and the suffix is returned. -/
theorem c3_witness :
    powerStateOf
        (some ⟨[(⟨"ProvisioningState/succeeded"⟩ : VmStatus)] ++
          (⟨"PowerState/" ++ "stopped"⟩ : VmStatus) :: []⟩) = "stopped" :=
  c3_power_state_parsing.1 [⟨"ProvisioningState/succeeded"⟩] [] "stopped"
    (by decide) (by decide)

/-- C4 counterexample: in `w4` the single VM's IP configuration
references a public-IP resource that exists but carries no address;
the collector then stores the provider's null address (`none`) as
`publicIp`, not the string sentinel `"N/A"` and not a dotted
literal. -/
theorem c4_counterexample :
    (list_vms w4).map (fun r => r.public_ip) = [none] := by decide

/-- C4 (amended): `privateIp` is always a string — a configured
address or `"N/A"`; `publicIp` is `"N/A"`, or a fetched public-IP
address, or the null address (`none`) passed through unchanged when
the referenced public-IP resource carries no address. -/
theorem c4_ip_sentinels :
    (∀ (w : World) (rg : String) (nics : List NicRef),
        pubIpScan w rg nics = none →
        ∃ n pip, w.public_ip_addresses_get rg n = some pip ∧ pip.ip_address = none)
    ∧ (∀ (w : World) (rg : String) (nics : List NicRef) (s : String),
        pubIpScan w rg nics = some s →
        s = "N/A" ∨ ∃ n pip, w.public_ip_addresses_get rg n = some pip ∧ pip.ip_address = some s)
    ∧ (∀ (w : World) (rg : String) (nics : List NicRef),
        resolvePrivateIp w rg nics = "N/A" ∨
        ∃ nref rest nic c cs a, nics = nref :: rest ∧
          w.network_interfaces_get rg (lastSeg nref.id) = some nic ∧
          nic.ip_configurations = c :: cs ∧ c.private_ip_address = some a ∧
          resolvePrivateIp w rg nics = a) := by
  refine ⟨pubIpScan_none_addr, pubIpScan_some_addr, ?_⟩
  intro w rg nics
  cases nics with
  | nil => exact Or.inl rfl
  | cons nref rest =>
    cases h1 : w.network_interfaces_get rg (lastSeg nref.id) with
    | none => exact Or.inl (by simp [resolvePrivateIp, h1])
    | some nic =>
      cases h2 : nic.ip_configurations with
      | nil => exact Or.inl (by simp [resolvePrivateIp, h1, h2])
      | cons c cs =>
        cases h3 : c.private_ip_address with
        | none => exact Or.inl (by simp [resolvePrivateIp, h1, h2, h3])
        | some a =>
          exact Or.inr ⟨nref, rest, nic, c, cs, a, rfl, h1, h2, h3,
            by simp [resolvePrivateIp, h1, h2, h3]⟩

/-- Witness for the amended C4 at `w4`: the scan returns `none`, and
indeed a fetched public-IP resource carries no address. -/
theorem c4_witness :
    ∃ n pip, w4.public_ip_addresses_get "rg1" n = some pip ∧ pip.ip_address = none :=
  c4_ip_sentinels.1 w4 "rg1"
    [⟨"/subscriptions/sub1/resourceGroups/rg1/providers/Microsoft.Network/networkInterfaces/nic1"⟩]
    (by decide)

/-- C5: per-record error isolation — a successful collection yields
exactly one record per listed VM; making every enrichment lookup fail
(instance view, NIC fetch, public-IP fetch) never changes whether
collection succeeds; and under total enrichment failure every record
is still produced, carrying the sentinels `"unknown"` and `"N/A"`. -/
theorem c5_per_record_isolation :
    (∀ (w : World) (l : List Vm) (recs : List VmRecord),
        collectRecords w l = some recs → recs.length = l.length)
    ∧ (∀ (w : World) (l : List Vm),
        (collectRecords (enrichmentFailWorld w) l).isSome = (collectRecords w l).isSome)
    ∧ (∀ (w : World) (l : List Vm) (recs : List VmRecord),
        collectRecords (enrichmentFailWorld w) l = some recs →
        ∀ r ∈ recs, r.power_state = "unknown" ∧ r.private_ip = "N/A" ∧ r.public_ip = some "N/A") := by
  refine ⟨collectRecords_length, collectRecords_failWorld_isSome, ?_⟩
  intro w l recs h r hr
  obtain ⟨vm, -, hmk⟩ := collectRecords_mem _ l recs h r hr
  exact mkVmRecord_failWorld w vm r hmk

/-- Witness for C5: one record per VM in `w1` and sentinels under
total enrichment failure. -/
theorem c5_witness :
    ([rec1] : List VmRecord).length = ([vm1] : List Vm).length
    ∧ ((⟨"vm1", "rg1", "Standard_B2s", "westeurope", "unknown", "Linux", some "N/A", "N/A",
          [("env", "prod")], "Succeeded", true⟩ : VmRecord).power_state = "unknown"
        ∧ (⟨"vm1", "rg1", "Standard_B2s", "westeurope", "unknown", "Linux", some "N/A", "N/A",
          [("env", "prod")], "Succeeded", true⟩ : VmRecord).private_ip = "N/A"
        ∧ (⟨"vm1", "rg1", "Standard_B2s", "westeurope", "unknown", "Linux", some "N/A", "N/A",
          [("env", "prod")], "Succeeded", true⟩ : VmRecord).public_ip = some "N/A") :=
  ⟨c5_per_record_isolation.1 w1 [vm1] [rec1] (by decide),
   c5_per_record_isolation.2.2 w1 [vm1]
     [⟨"vm1", "rg1", "Standard_B2s", "westeurope", "unknown", "Linux", some "N/A", "N/A",
        [("env", "prod")], "Succeeded", true⟩] (by decide)
     ⟨"vm1", "rg1", "Standard_B2s", "westeurope", "unknown", "Linux", some "N/A", "N/A",
        [("env", "prod")], "Succeeded", true⟩ (by decide)⟩

/-- C6: a failed authentication, failed client construction, or a
failed top-level listing call each yield `[]` from `list_vms` — the
same value a legitimately empty subscription yields — with no partial
records. -/
theorem c6_fatal_failures_empty (w : World) :
    (w.auth_ok = false → list_vms w = [])
    ∧ (w.clients_ok = false → list_vms w = [])
    ∧ (w.list_all = none → list_vms w = [])
    ∧ (w.list_all = some [] → list_vms w = []) := by
  refine ⟨?_, ?_, ?_, ?_⟩
  · intro h
    simp [list_vms, clients_ready, h]
  · intro h
    simp [list_vms, clients_ready, h]
  · intro h
    by_cases hc : clients_ready w <;> simp [list_vms, hc, h]
  · intro h
    by_cases hc : clients_ready w <;> simp [list_vms, hc, h, collectRecords]

/-- Witness for C6: all four failure shapes produce the empty
listing. -/
theorem c6_witness :
    list_vms w6a = [] ∧ list_vms w6b = [] ∧ list_vms w6c = [] ∧ list_vms w6d = [] :=
  ⟨(c6_fatal_failures_empty w6a).1 rfl,
   (c6_fatal_failures_empty w6b).2.1 rfl,
   (c6_fatal_failures_empty w6c).2.2.1 rfl,
   (c6_fatal_failures_empty w6d).2.2.2 rfl⟩

/-- C7: for an identifier of the form
`/subscriptions/S/resourceGroups/RG/providers/...` with `S` and `RG`
free of `/`, splitting on `/` and taking index 4 yields `RG`; and the
collector's stored `resourceGroup` is exactly this extraction applied
to the VM's identifier. -/
theorem c7_resource_group_extraction :
    (∀ (s rg t : String), '/' ∉ s.data → '/' ∉ rg.data →
        extractResourceGroup?
          ("/subscriptions/" ++ s ++ "/resourceGroups/" ++ rg ++ "/providers/" ++ t) = some rg)
    ∧ (∀ (w : World) (vm : Vm) (r : VmRecord),
        mkVmRecord w vm = some r → extractResourceGroup? vm.id = some r.resource_group) := by
  constructor
  · intro s rg t hs hrg
    have hdata : ("/subscriptions/" ++ s ++ "/resourceGroups/" ++ rg ++ "/providers/" ++ t).data
        = '/' :: ("subscriptions".data ++ '/' :: (s.data ++ '/' :: ("resourceGroups".data ++
            '/' :: (rg.data ++ '/' :: ("providers".data ++ '/' :: t.data))))) := by
      simp [String.data_append, List.append_assoc]
    simp only [extractResourceGroup?, pySplit]
    rw [hdata, splitChar_sep_cons,
      splitChar_append_no_sep '/' _ _ (by decide),
      splitChar_append_no_sep '/' _ _ hs,
      splitChar_append_no_sep '/' _ _ (by decide),
      splitChar_append_no_sep '/' _ _ hrg]
    show some (String.mk rg.data) = some rg
    rw [mk_data]
  · intro w vm r h
    cases h4 : extractResourceGroup? vm.id with
    | none => rw [(mkVmRecord_none_iff w vm).2 h4] at h; exact absurd h (by simp)
    | some rg0 =>
      simp only [mkVmRecord, h4, Option.some.injEq] at h
      subst h
      rfl

/-- Witness for C7 at a concrete well-formed identifier. -/
theorem c7_witness :
    extractResourceGroup?
      ("/subscriptions/" ++ "sub1" ++ "/resourceGroups/" ++ "rg1" ++ "/providers/" ++
        "Microsoft.Compute/virtualMachines/vm1") = some "rg1" :=
  c7_resource_group_extraction.1 "sub1" "rg1" "Microsoft.Compute/virtualMachines/vm1"
    (by decide) (by decide)

/-- C8: on an empty record sequence the renderer emits exactly the
single "no VMs found" notice — no table and no summary lines. -/
theorem c8_empty_input_notice : display_vms_table [] = [OutLine.noVmsNotice] := by
  decide

/-- C9: on any non-empty input the renderer emits the table, the
summary header, the total / running / untagged counts, the number of
distinct resource groups, and then one line per group; the group
lines are strictly ascending in the group name (code-point
lexicographic), each group line's count is the number of records in
that group, the lines cover exactly the groups present; and the
claim's three-VM scenario renders `Total 3, Running 1, Untagged 1`
with breakdown `A: 2, B: 1` although group `B` comes first in the
input. -/
theorem c9_summary_block :
    (∀ (v : VmRecord) (rest : List VmRecord),
        display_vms_table (v :: rest) =
          OutLine.table ((v :: rest).map rowOf) ::
          OutLine.summaryHeader ::
          OutLine.totalLine (v :: rest).length ::
          OutLine.runningLine ((v :: rest).countP (fun vm => decide (vm.power_state = "running"))) ::
          OutLine.untaggedLine ((v :: rest).countP (fun vm => !vm.tagged)) ::
          OutLine.rgCountLine (rgCounts (v :: rest)).length ::
          (sortedRgCounts (v :: rest)).map (fun p => OutLine.rgLine p.1 p.2))
    ∧ (∀ (vms : List VmRecord),
        List.Pairwise (fun p q : String × Nat => lexLe p.1.data q.1.data = true ∧ p.1 ≠ q.1)
          (sortedRgCounts vms))
    ∧ (∀ (vms : List VmRecord) (p : String × Nat), p ∈ sortedRgCounts vms →
        p.2 = vms.countP (fun v => decide (v.resource_group = p.1)) ∧
          p.1 ∈ vms.map (fun v => v.resource_group))
    ∧ (∀ (vms : List VmRecord) (v : VmRecord), v ∈ vms →
        ∃ p ∈ sortedRgCounts vms, p.1 = v.resource_group)
    ∧ display_vms_table [recB, recA1, recA2] =
        [OutLine.table ([recB, recA1, recA2].map rowOf),
         OutLine.summaryHeader, OutLine.totalLine 3, OutLine.runningLine 1,
         OutLine.untaggedLine 1, OutLine.rgCountLine 2,
         OutLine.rgLine "A" 2, OutLine.rgLine "B" 1] := by
  refine ⟨?_, sortedRgCounts_pairwise, mem_sortedRgCounts, group_mem_sortedRgCounts, by decide⟩
  intro v rest
  rfl

/-- Witness for C9: in the three-VM scenario the group line `A: 2`
indeed counts the records of group `A`, which occurs in the input. -/
theorem c9_witness :
    ((("A", 2) : String × Nat).2 =
        [recB, recA1, recA2].countP
          (fun v => decide (v.resource_group = (("A", 2) : String × Nat).1)))
    ∧ (("A", 2) : String × Nat).1 ∈ [recB, recA1, recA2].map (fun v => v.resource_group) :=
  c9_summary_block.2.2.1 [recB, recA1, recA2] ("A", 2) (by decide)

/-- C10: both network lookups are issued only against the VM's own
resource group with the last path segment of the referenced
identifier as name — the result depends on nothing outside that
group's tables — so in `w10`, whose NIC and public IP exist only
under `other-rg`, the record degrades to the sentinels even though
the resources exist with real addresses. -/
theorem c10_colocated_lookups :
    (∀ (w w' : World) (rg : String),
        (∀ n, w.network_interfaces_get rg n = w'.network_interfaces_get rg n) →
        (∀ n, w.public_ip_addresses_get rg n = w'.public_ip_addresses_get rg n) →
        ∀ (nics : List NicRef),
          resolvePrivateIp w rg nics = resolvePrivateIp w' rg nics ∧
          pubIpScan w rg nics = pubIpScan w' rg nics)
    ∧ (list_vms w10).map (fun r => (r.private_ip, r.public_ip)) = [("N/A", some "N/A")]
    ∧ w10.network_interfaces_get "other-rg" "nic1" =
        some ⟨[⟨some "10.9.9.9",
          some ⟨"/subscriptions/sub1/resourceGroups/other-rg/providers/Microsoft.Network/publicIPAddresses/pip1"⟩⟩]⟩
    ∧ w10.public_ip_addresses_get "other-rg" "pip1" = some ⟨some "4.3.2.1"⟩ := by
  refine ⟨?_, by decide, by decide, by decide⟩
  intro w w' rg hn hp nics
  exact ⟨resolvePrivateIp_congr w w' rg hn nics, pubIpScan_congr w w' rg hn hp nics⟩

/-- Witness for C10: erasing every lookup outside `rg10` (as in
`w10b`) leaves both resolutions unchanged. -/
theorem c10_witness :
    resolvePrivateIp w10 "rg10" vm10.network_profile.network_interfaces =
      resolvePrivateIp w10b "rg10" vm10.network_profile.network_interfaces
    ∧ pubIpScan w10 "rg10" vm10.network_profile.network_interfaces =
      pubIpScan w10b "rg10" vm10.network_profile.network_interfaces :=
  c10_colocated_lookups.1 w10 w10b "rg10" (fun _ => rfl) (fun _ => rfl)
    vm10.network_profile.network_interfaces
